import Mathlib

/-!
Shallow embedding of the audio capture-and-segmentation pipeline of
`src/main.py` (whisper-stream).

Samples are signed 16-bit integers modelled as `ℤ`; the float arithmetic of
the source (`astype(np.float32) / 32768.0`, the threshold scaling
`threshold / 5000.0`, and the silence-window product
`silence_limit * (sample_rate / chunk_size)`) is modelled exactly over `ℚ`.
A chunk is one block delivered by the device callback; the capture loop of
`TranscriptionThread.run` is modelled as a fold over the incoming chunks.
-/

/-- One audio chunk: the block of raw int16 samples delivered by the device
callback (`indata` in `AudioProcessor.audio_callback`). -/
abbrev Chunk := List ℤ

/-- `audio_chunk.astype(np.float32) / 32768.0` (src/main.py:85): every raw
sample divided by 32768, on the exact rational scale. -/
def toFloat (c : Chunk) : List ℚ :=
  c.map (fun s : ℤ => (s : ℚ) / 32768)

/-- `np.max(np.abs(audio_data))`: the maximum of the absolute values of the
entries (with 0 for an empty list; numpy raises there, and the capture loop
only ever passes nonempty blocks). -/
def npMaxAbs (xs : List ℚ) : ℚ :=
  (xs.map (fun x => |x|)).foldr max 0

/-- `AudioProcessor.is_silent` (src/main.py:38-39):
`np.max(np.abs(audio_data)) < threshold`. -/
def is_silent (audio_data : List ℚ) (threshold : ℚ) : Bool :=
  decide (npMaxAbs audio_data < threshold)

/-- `TranscriptionThread.set_threshold` (src/main.py:62-63): the UI spin-box
value is divided by 5000.0 to obtain the float threshold. -/
def set_threshold (ui : ℕ) : ℚ :=
  (ui : ℚ) / 5000

/-- `self.sample_rate = 16000` (src/main.py:26). -/
def sample_rate : ℕ := 16000

/-- `self.chunk_size = 1024` (src/main.py:29). -/
def chunk_size : ℕ := 1024

/-- `silence_limit=2` default (src/main.py:23). -/
def codeSilenceLimit : ℚ := 2

/-- `self.audio_processor.sample_rate / self.audio_processor.chunk_size`
(src/main.py:96): frames per second of silence window, 16000/1024 = 15.625. -/
def codeR : ℚ := (sample_rate : ℚ) / (chunk_size : ℚ)

/-- The literal `50` of `len(audio_buffer) > 50` (src/main.py:97). -/
def codeMaxFrames : ℕ := 50

/-- The literal `2` of `len(audio_buffer) > 2` (src/main.py:99). -/
def codeMinFrames : ℕ := 2

/-- `self.threshold = 0.01` default (src/main.py:57). -/
def codeDefaultThreshold : ℚ := 1 / 100

/-- The mutable loop state of `TranscriptionThread.run`: `audio_buffer`
(src/main.py:77) and `silence_counter` (src/main.py:78). -/
structure LoopState where
  audio_buffer : List Chunk
  silence_counter : ℕ
  deriving DecidableEq, Repr

/-- The fresh state at loop entry: `audio_buffer = []`, `silence_counter = 0`
(src/main.py:77-78). -/
def freshState : LoopState := ⟨[], 0⟩

/-- The silence-counter update (src/main.py:87-90): increment on a silent
chunk, reset to 0 otherwise. -/
def nextCounter (thr : ℚ) (sc : ℕ) (c : Chunk) : ℕ :=
  if is_silent (toFloat c) thr then sc + 1 else 0

/-- The completion test (src/main.py:95-97):
`silence_counter > silence_limit * (sample_rate / chunk_size) or
len(audio_buffer) > 50`, with the silence limit `S`, the frame rate `R` and
the length cap `maxF` as parameters. -/
def isComplete (S R : ℚ) (maxF : ℕ) (sc len : ℕ) : Bool :=
  decide ((sc : ℚ) > S * R) || decide (len > maxF)

/-- One pass of the loop body of `TranscriptionThread.run` for one dequeued
chunk, ignoring I/O effects: classify (src/main.py:87-90), append
(src/main.py:92), test completion (src/main.py:95-97); on completion hand the
buffer off as a segment when it is long enough (src/main.py:99-101) and reset
both buffer and counter (src/main.py:128-129). The second component
accumulates the segments handed to the dispatcher. -/
def stepFrame (thr S R : ℚ) (maxF minF : ℕ) :
    LoopState × List (List Chunk) → Chunk → LoopState × List (List Chunk)
  | (st, segs), c =>
    let sc := nextCounter thr st.silence_counter c
    let buf := st.audio_buffer ++ [c]
    if isComplete S R maxF sc buf.length then
      if buf.length > minF then (⟨[], 0⟩, segs ++ [buf]) else (⟨[], 0⟩, segs)
    else (⟨buf, sc⟩, segs)

/-- The capture loop run from a fresh state over a list of chunks, collecting
the dispatched segments. -/
def runLoop (thr S R : ℚ) (maxF minF : ℕ) (chunks : List Chunk) :
    LoopState × List (List Chunk) :=
  chunks.foldl (stepFrame thr S R maxF minF) (freshState, [])

/-- Length of the maximal run of silent chunks at the end of the list: the
value that the loop silence counter holds after accumulating those chunks. -/
def trailingSilentRun (thr : ℚ) (frames : List Chunk) : ℕ :=
  (frames.reverse.takeWhile (fun c => is_silent (toFloat c) thr)).length

/-- Events emitted through the Qt signals of `TranscriptionThread`
(src/main.py:49-50): `transcription_signal` and `error_signal`. -/
inductive Event
  | transcription (text : String)
  | error (text : String)
  deriving DecidableEq, Repr

/-- Outcome of the backend call `openai.Audio.transcribe` (src/main.py:114):
a response carrying a `text` field (possibly empty), or a raised exception. -/
inductive BackendResult
  | ok (text : String)
  | fail (msg : String)
  deriving DecidableEq, Repr

/-- `if response and response.get("text"): emit(text.strip())` on success,
`except: error_signal.emit("Transcription error: ...")` on failure
(src/main.py:112-122). -/
def dispatchEvents (backend : BackendResult) : List Event :=
  match backend with
  | .ok t => if t = "" then [] else [Event.transcription t.trim]
  | .fail m => [Event.error ("Transcription error: " ++ m)]

/-- Full outcome of one loop iteration, with its I/O effects recorded:
resulting state, the segment that went through the save-and-transcribe path
(if any), the emitted events, and whether the temporary WAV file was created
and removed. -/
structure IterOutcome where
  state : LoopState
  dispatched : Option (List Chunk)
  events : List Event
  tempCreated : Bool
  tempRemoved : Bool
  deriving DecidableEq, Repr

/-- One pass of the loop body with effects (src/main.py:80-134). `saveResult`
injects the outcome of the concatenate-and-save section (src/main.py:100-109):
`none` for success, `some m` for an exception with message `m`, which is
caught only by the outer handler (src/main.py:133-134) — it emits one
`Processing error` event and, crucially, never reaches the reset at
src/main.py:128-129. On a successful save, the backend is called inside its
own handler (src/main.py:112-122), so `os.remove` (src/main.py:125) and the
reset (src/main.py:128-129) run regardless of the backend outcome. -/
def runIteration (thr S R : ℚ) (maxF minF : ℕ) (saveResult : Option String)
    (backend : BackendResult) (st : LoopState) (c : Chunk) : IterOutcome :=
  let sc := nextCounter thr st.silence_counter c
  let buf := st.audio_buffer ++ [c]
  if isComplete S R maxF sc buf.length then
    if buf.length > minF then
      match saveResult with
      | none => ⟨⟨[], 0⟩, some buf, dispatchEvents backend, true, true⟩
      | some m => ⟨⟨buf, sc⟩, none, [Event.error ("Processing error: " ++ m)], false, false⟩
    else ⟨⟨[], 0⟩, none, [], false, false⟩
  else ⟨⟨buf, sc⟩, none, [], false, false⟩

/-- The effectful loop over a list of chunks, each paired with the injected
save outcome and backend result for the iteration in which it is processed;
collects dispatched segments and emitted events. -/
def runLoopE (thr S R : ℚ) (maxF minF : ℕ)
    (inputs : List (Chunk × Option String × BackendResult)) :
    LoopState × List (List Chunk) × List Event :=
  inputs.foldl
    (fun acc inp =>
      let out := runIteration thr S R maxF minF inp.2.1 inp.2.2 acc.1 inp.1
      (out.state, acc.2.1 ++ out.dispatched.toList, acc.2.2 ++ out.events))
    (freshState, [], [])

/-- The frame hand-off queue. `AudioProcessor.__init__` constructs
`queue.Queue()` (src/main.py:30), i.e. with the default `maxsize = 0`; per the
Python standard-library semantics modelled here, a `put` blocks (returns
`none`) only when `0 < maxsize` and the queue is full, and otherwise appends
the item (`audio_callback`, src/main.py:36). -/
def queuePut (maxsize : ℕ) (items : List Chunk) (x : Chunk) : Option (List Chunk) :=
  if maxsize = 0 ∨ items.length < maxsize then some (items ++ [x]) else none

/-- An all-zero sample block: silent for every positive threshold. -/
def silentChunk : Chunk := [0]

/-- A block holding the sample 1000, normalized peak 1000/32768 ≈ 0.0305:
non-silent at the default threshold. -/
def loudChunk : Chunk := [1000]

/-- The stream of the end-to-end scenario: 40 non-silent chunks followed by
35 silent chunks. -/
def c1Stream : List Chunk :=
  List.replicate 40 loudChunk ++ List.replicate 35 silentChunk

/-- Inputs for the C8 counterexample: 32 silent chunks, each iteration with
the save step poised to fail, then one non-silent chunk. -/
def c8Inputs : List (Chunk × Option String × BackendResult) :=
  List.replicate 32 (silentChunk, some "disk full", BackendResult.ok "") ++
    [(loudChunk, none, BackendResult.ok "")]

/-! ### Basic lemmas about the embedded operations -/

theorem isComplete_iff (S R : ℚ) (maxF sc len : ℕ) :
    isComplete S R maxF sc len = true ↔ (S * R < (sc : ℚ) ∨ maxF < len) := by
  simp [isComplete]

theorem isComplete_eq_false (S R : ℚ) (maxF sc len : ℕ)
    (h1 : (sc : ℚ) ≤ S * R) (h2 : len ≤ maxF) :
    isComplete S R maxF sc len = false := by
  simp [isComplete]
  exact ⟨h1, h2⟩

theorem trailingSilentRun_concat (thr : ℚ) (fs : List Chunk) (c : Chunk) :
    trailingSilentRun thr (fs ++ [c]) =
      if is_silent (toFloat c) thr then trailingSilentRun thr fs + 1 else 0 := by
  unfold trailingSilentRun
  rw [List.reverse_append]
  simp only [List.reverse_singleton, List.singleton_append, List.takeWhile_cons]
  split <;> simp

theorem nextCounter_trailing (thr : ℚ) (fs : List Chunk) (c : Chunk) :
    nextCounter thr (trailingSilentRun thr fs) c = trailingSilentRun thr (fs ++ [c]) := by
  rw [trailingSilentRun_concat, nextCounter]

theorem trailingSilentRun_of_loud (thr : ℚ) (p : List Chunk)
    (h : ∀ c ∈ p, is_silent (toFloat c) thr = false) :
    trailingSilentRun thr p = 0 := by
  unfold trailingSilentRun
  cases hp : p.reverse with
  | nil => simp
  | cons c t =>
      have hc : c ∈ p := by
        rw [← List.mem_reverse, hp]
        exact List.mem_cons_self c t
      rw [List.takeWhile_cons, h c hc]
      simp

theorem trailingSilentRun_of_silent (thr : ℚ) (p : List Chunk)
    (h : ∀ c ∈ p, is_silent (toFloat c) thr = true) :
    trailingSilentRun thr p = p.length := by
  induction p using List.reverseRecOn with
  | nil => rfl
  | append_singleton fs c ih =>
      rw [trailingSilentRun_concat, if_pos (h c (by simp))]
      rw [ih fun d hd => h d (by simp [hd])]
      simp

theorem stepFrame_not_complete (thr S R : ℚ) (maxF minF : ℕ) (st : LoopState)
    (segs : List (List Chunk)) (c : Chunk)
    (h : isComplete S R maxF (nextCounter thr st.silence_counter c)
      (st.audio_buffer.length + 1) = false) :
    stepFrame thr S R maxF minF (st, segs) c =
      (⟨st.audio_buffer ++ [c], nextCounter thr st.silence_counter c⟩, segs) := by
  have hl : (st.audio_buffer ++ [c]).length = st.audio_buffer.length + 1 := by simp
  unfold stepFrame
  simp only [hl, h]
  simp

theorem stepFrame_complete_dispatch (thr S R : ℚ) (maxF minF : ℕ) (st : LoopState)
    (segs : List (List Chunk)) (c : Chunk)
    (hc : isComplete S R maxF (nextCounter thr st.silence_counter c)
      (st.audio_buffer.length + 1) = true)
    (hlen : minF < st.audio_buffer.length + 1) :
    stepFrame thr S R maxF minF (st, segs) c =
      (freshState, segs ++ [st.audio_buffer ++ [c]]) := by
  have hl : (st.audio_buffer ++ [c]).length = st.audio_buffer.length + 1 := by simp
  unfold stepFrame
  simp only [hl, hc]
  simp [hlen, freshState]

theorem stepFrame_complete_discard (thr S R : ℚ) (maxF minF : ℕ) (st : LoopState)
    (segs : List (List Chunk)) (c : Chunk)
    (hc : isComplete S R maxF (nextCounter thr st.silence_counter c)
      (st.audio_buffer.length + 1) = true)
    (hlen : st.audio_buffer.length + 1 ≤ minF) :
    stepFrame thr S R maxF minF (st, segs) c = (freshState, segs) := by
  have hl : (st.audio_buffer ++ [c]).length = st.audio_buffer.length + 1 := by simp
  unfold stepFrame
  simp only [hl, hc]
  simp [Nat.not_lt.mpr hlen, freshState]

theorem stepFrame_segs (thr S R : ℚ) (maxF minF : ℕ) (st : LoopState)
    (segs : List (List Chunk)) (c : Chunk) :
    stepFrame thr S R maxF minF (st, segs) c =
      ((stepFrame thr S R maxF minF (st, []) c).1,
        segs ++ (stepFrame thr S R maxF minF (st, []) c).2) := by
  simp only [stepFrame]
  split_ifs <;> simp

theorem foldl_stepFrame_segs (thr S R : ℚ) (maxF minF : ℕ) (chunks : List Chunk)
    (st : LoopState) (segs : List (List Chunk)) :
    chunks.foldl (stepFrame thr S R maxF minF) (st, segs) =
      ((chunks.foldl (stepFrame thr S R maxF minF) (st, [])).1,
        segs ++ (chunks.foldl (stepFrame thr S R maxF minF) (st, [])).2) := by
  induction chunks generalizing st segs with
  | nil => simp
  | cons c tl ih =>
      rw [List.foldl_cons, List.foldl_cons, stepFrame_segs,
        show stepFrame thr S R maxF minF (st, []) c =
          ((stepFrame thr S R maxF minF (st, []) c).1,
            (stepFrame thr S R maxF minF (st, []) c).2) from rfl]
      rw [ih, ih ((stepFrame thr S R maxF minF (st, []) c).1)
        ((stepFrame thr S R maxF minF (st, []) c).2)]
      simp

theorem runLoop_concat (thr S R : ℚ) (maxF minF : ℕ) (fs : List Chunk) (c : Chunk) :
    runLoop thr S R maxF minF (fs ++ [c]) =
      stepFrame thr S R maxF minF (runLoop thr S R maxF minF fs) c := by
  rw [runLoop, runLoop, List.foldl_append]
  rfl

theorem runLoop_append_of_reset (thr S R : ℚ) (maxF minF : ℕ) (a b : List Chunk)
    (h : (runLoop thr S R maxF minF a).1 = freshState) :
    runLoop thr S R maxF minF (a ++ b) =
      ((runLoop thr S R maxF minF b).1,
        (runLoop thr S R maxF minF a).2 ++ (runLoop thr S R maxF minF b).2) := by
  rw [runLoop, List.foldl_append, ← runLoop,
    show runLoop thr S R maxF minF a =
      ((runLoop thr S R maxF minF a).1, (runLoop thr S R maxF minF a).2) from rfl,
    h]
  rw [show (List.foldl (stepFrame thr S R maxF minF)
      (freshState, (runLoop thr S R maxF minF a).2) b) =
    ((List.foldl (stepFrame thr S R maxF minF) (freshState, []) b).1,
      (runLoop thr S R maxF minF a).2 ++
        (List.foldl (stepFrame thr S R maxF minF) (freshState, []) b).2) from
    foldl_stepFrame_segs thr S R maxF minF b freshState _]
  rfl

theorem runLoop_accum (thr S R : ℚ) (maxF minF : ℕ) (chunks : List Chunk)
    (H : ∀ n, 0 < n → n ≤ chunks.length →
      isComplete S R maxF (trailingSilentRun thr (chunks.take n)) n = false) :
    runLoop thr S R maxF minF chunks =
      (⟨chunks, trailingSilentRun thr chunks⟩, []) := by
  induction chunks using List.reverseRecOn with
  | nil => rfl
  | append_singleton fs c ih =>
      have hfs : ∀ n, 0 < n → n ≤ fs.length →
          isComplete S R maxF (trailingSilentRun thr (fs.take n)) n = false := by
        intro n hn hle
        have h := H n hn (by simp; omega)
        rwa [List.take_append_of_le_length hle] at h
      have htake : (fs ++ [c]).take (fs.length + 1) = fs ++ [c] := by
        have h := List.take_length (fs ++ [c])
        rwa [List.length_append, List.length_singleton] at h
      have hstep := H (fs.length + 1) (Nat.succ_pos _) (by simp)
      rw [htake] at hstep
      rw [runLoop_concat, ih hfs, stepFrame_not_complete]
      · rw [show (⟨fs, trailingSilentRun thr fs⟩ : LoopState).audio_buffer = fs from rfl,
          show (⟨fs, trailingSilentRun thr fs⟩ : LoopState).silence_counter =
            trailingSilentRun thr fs from rfl, nextCounter_trailing]
      · rw [show (⟨fs, trailingSilentRun thr fs⟩ : LoopState).silence_counter =
            trailingSilentRun thr fs from rfl, nextCounter_trailing]
        simp only [show (⟨fs, trailingSilentRun thr fs⟩ : LoopState).audio_buffer = fs from rfl]
        exact hstep

/-! ### Claim theorems -/

/-- C2: for every sequence of chunks fed to a fresh accumulator with silence
limit `S` seconds and frame rate `R`, if no completion (silence or max-length)
triggered at any earlier frame, then the completion check the loop performs on
the next chunk `c` succeeds exactly when the count of consecutive trailing
silent chunks strictly exceeds `S * R`, or the buffer length strictly exceeds
`maxF` — and never earlier. -/
theorem silence_completion_exact (thr S R : ℚ) (maxF minF : ℕ)
    (chunks : List Chunk) (c : Chunk)
    (H : ∀ n, 0 < n → n ≤ chunks.length →
      isComplete S R maxF (trailingSilentRun thr (chunks.take n)) n = false) :
    (isComplete S R maxF
        (nextCounter thr (runLoop thr S R maxF minF chunks).1.silence_counter c)
        (chunks.length + 1) = true) ↔
      ((trailingSilentRun thr (chunks ++ [c]) : ℚ) > S * R ∨
        chunks.length + 1 > maxF) := by
  rw [runLoop_accum thr S R maxF minF chunks H,
    show ((⟨chunks, trailingSilentRun thr chunks⟩ : LoopState),
        ([] : List (List Chunk))).1.silence_counter =
      trailingSilentRun thr chunks from rfl,
    nextCounter_trailing]
  exact isComplete_iff S R maxF _ _

/-- Witness for C2: a single non-silent chunk accumulated, another one
appended; neither trigger fires. -/
theorem silence_completion_exact_witness :
    (isComplete codeSilenceLimit codeR 50
        (nextCounter codeDefaultThreshold
          (runLoop codeDefaultThreshold codeSilenceLimit codeR 50 2
            [loudChunk]).1.silence_counter loudChunk)
        ([loudChunk].length + 1) = true) ↔
      ((trailingSilentRun codeDefaultThreshold ([loudChunk] ++ [loudChunk]) : ℚ) >
          codeSilenceLimit * codeR ∨ [loudChunk].length + 1 > 50) := by
  exact silence_completion_exact codeDefaultThreshold codeSilenceLimit codeR 50 2
    [loudChunk] loudChunk (by
      intro n hn hle
      simp only [List.length_singleton] at hle
      have hn1 : n = 1 := by omega
      subst hn1
      with_unfolding_all rfl)

/-- C3: a continuous non-silent stream never completes while the buffer holds
at most `maxF` chunks, and completion is forced (with the whole buffer
dispatched) exactly when the stream reaches `maxF + 1` chunks; in the code the
cap is the constant 50. -/
theorem maxFrames_cap_exact (thr S R : ℚ) (maxF minF : ℕ) (chunks : List Chunk)
    (hloud : ∀ c ∈ chunks, is_silent (toFloat c) thr = false)
    (hSR : 0 ≤ S * R) (hminF : minF ≤ maxF) :
    (chunks.length ≤ maxF →
      runLoop thr S R maxF minF chunks = (⟨chunks, 0⟩, [])) ∧
    (chunks.length = maxF + 1 →
      runLoop thr S R maxF minF chunks = (freshState, [chunks])) ∧
    codeMaxFrames = 50 := by
  have haccum : ∀ l : List Chunk, (∀ c ∈ l, is_silent (toFloat c) thr = false) →
      l.length ≤ maxF → runLoop thr S R maxF minF l = (⟨l, 0⟩, []) := by
    intro l hl hlen
    have h := runLoop_accum thr S R maxF minF l (by
      intro n hn hle
      apply isComplete_eq_false
      · rw [trailingSilentRun_of_loud thr (l.take n)
          (fun d hd => hl d (List.take_subset n l hd))]
        exact_mod_cast hSR
      · omega)
    rwa [trailingSilentRun_of_loud thr l hl] at h
  refine ⟨fun hlen => haccum chunks hloud hlen, fun hlen => ?_, rfl⟩
  rcases List.eq_nil_or_concat chunks with rfl | ⟨L, b, rfl⟩
  · simp at hlen
  · simp only [List.concat_eq_append] at hloud hlen ⊢
    have hLlen : L.length = maxF := by
      rw [List.length_append, List.length_singleton] at hlen
      omega
    have hL : runLoop thr S R maxF minF L = (⟨L, 0⟩, []) :=
      haccum L (fun d hd => hloud d (by simp [hd])) (le_of_eq hLlen)
    have hc : isComplete S R maxF
        (nextCounter thr (⟨L, 0⟩ : LoopState).silence_counter b)
        ((⟨L, 0⟩ : LoopState).audio_buffer.length + 1) = true := by
      apply (isComplete_iff _ _ _ _ _).mpr
      right
      show maxF < L.length + 1
      omega
    have hml : minF < (⟨L, 0⟩ : LoopState).audio_buffer.length + 1 := by
      show minF < L.length + 1
      omega
    rw [runLoop_concat, hL,
      stepFrame_complete_dispatch thr S R maxF minF ⟨L, 0⟩ [] b hc hml]
    simp

/-- Witness for C3: three non-silent chunks stay below a cap of 3; a fourth
forces the dispatch. -/
theorem maxFrames_cap_exact_witness :
    runLoop codeDefaultThreshold codeSilenceLimit codeR 3 2
        (List.replicate 3 loudChunk) = (⟨List.replicate 3 loudChunk, 0⟩, []) ∧
    runLoop codeDefaultThreshold codeSilenceLimit codeR 3 2
        (List.replicate 4 loudChunk) = (freshState, [List.replicate 4 loudChunk]) := by
  constructor
  · exact (maxFrames_cap_exact codeDefaultThreshold codeSilenceLimit codeR 3 2
      (List.replicate 3 loudChunk)
      (by intro d hd; rw [List.eq_of_mem_replicate hd]; with_unfolding_all rfl)
      (by norm_num [codeSilenceLimit, codeR, sample_rate, chunk_size])
      (by norm_num)).1 (by simp)
  · exact (maxFrames_cap_exact codeDefaultThreshold codeSilenceLimit codeR 3 2
      (List.replicate 4 loudChunk)
      (by intro d hd; rw [List.eq_of_mem_replicate hd]; with_unfolding_all rfl)
      (by norm_num [codeSilenceLimit, codeR, sample_rate, chunk_size])
      (by norm_num)).2.1 (by simp)

set_option maxRecDepth 200000 in
/-- C1-counterexample: with the parameters of the code, after the first 50 chunks
of the 40-non-silent-then-35-silent scenario nothing has been dispatched and
the buffer still holds all 50 chunks (no completion at frame 50), and over the
full stream the single dispatched segment holds 51 chunks, not 50. -/
theorem endToEnd_counterexample :
    (runLoop codeDefaultThreshold codeSilenceLimit codeR codeMaxFrames
        codeMinFrames (c1Stream.take 50)).2 = [] ∧
    (runLoop codeDefaultThreshold codeSilenceLimit codeR codeMaxFrames
        codeMinFrames (c1Stream.take 50)).1.audio_buffer.length = 50 ∧
    ((runLoop codeDefaultThreshold codeSilenceLimit codeR codeMaxFrames
        codeMinFrames c1Stream).2.map List.length) = [51] := by
  refine ⟨?_, ?_, ?_⟩ <;> with_unfolding_all rfl

set_option maxRecDepth 200000 in
/-- C1 (amended): feeding 40 non-silent then 35 silent chunks with the parameters
of the code dispatches nothing during the first 50 chunks; completion is
triggered by the max-length cap at frame 51, and the segment handed to the
dispatcher holds exactly 51 chunks — the 40 non-silent ones plus the first 11
silent ones. -/
theorem endToEnd_scenario :
    (runLoop codeDefaultThreshold codeSilenceLimit codeR codeMaxFrames
        codeMinFrames (c1Stream.take 50)).2 = [] ∧
    runLoop codeDefaultThreshold codeSilenceLimit codeR codeMaxFrames
        codeMinFrames c1Stream =
      (⟨List.replicate 24 silentChunk, 24⟩,
        [List.replicate 40 loudChunk ++ List.replicate 11 silentChunk]) := by
  constructor <;> with_unfolding_all rfl

/-- C9: with the default configuration of the code (silence limit 2 s, rate 16000,
chunk size 1024, cap 50, short-buffer cutoff 2), any 32 consecutive chunks
classified silent complete from a fresh state and dispatch the whole 32-chunk
all-silent segment to the backend; 32 further silent chunks dispatch a second
such segment. -/
theorem allSilent_dispatches (thr : ℚ) (chunks more : List Chunk)
    (hlen : chunks.length = 32)
    (hsil : ∀ c ∈ chunks, is_silent (toFloat c) thr = true)
    (hlen2 : more.length = 32)
    (hsil2 : ∀ c ∈ more, is_silent (toFloat c) thr = true) :
    runLoop thr codeSilenceLimit codeR codeMaxFrames codeMinFrames chunks =
      (freshState, [chunks]) ∧
    runLoop thr codeSilenceLimit codeR codeMaxFrames codeMinFrames
      (chunks ++ more) = (freshState, [chunks, more]) := by
  have main : ∀ l : List Chunk, l.length = 32 →
      (∀ c ∈ l, is_silent (toFloat c) thr = true) →
      runLoop thr codeSilenceLimit codeR codeMaxFrames codeMinFrames l =
        (freshState, [l]) := by
    intro l hl hs
    rcases List.eq_nil_or_concat l with rfl | ⟨L, b, rfl⟩
    · simp at hl
    · simp only [List.concat_eq_append] at hl hs ⊢
      have hLlen : L.length = 31 := by
        rw [List.length_append, List.length_singleton] at hl
        omega
      have hmax : codeMaxFrames = 50 := rfl
      have hL : runLoop thr codeSilenceLimit codeR codeMaxFrames codeMinFrames L =
          (⟨L, 31⟩, []) := by
        have h := runLoop_accum thr codeSilenceLimit codeR codeMaxFrames
          codeMinFrames L (by
            intro n hn hle
            apply isComplete_eq_false
            · rw [trailingSilentRun_of_silent thr (L.take n)
                (fun d hd => hs d (List.mem_append_left _ (List.take_subset n L hd)))]
              rw [List.length_take]
              have hle31 : min n L.length ≤ 31 := by omega
              have hcast : ((min n L.length : ℕ) : ℚ) ≤ 31 := by exact_mod_cast hle31
              refine hcast.trans ?_
              norm_num [codeSilenceLimit, codeR, sample_rate, chunk_size]
            · omega)
        rwa [trailingSilentRun_of_silent thr L
          (fun d hd => hs d (List.mem_append_left _ hd)), hLlen] at h
      have hb : is_silent (toFloat b) thr = true := hs b (by simp)
      have hc : isComplete codeSilenceLimit codeR codeMaxFrames
          (nextCounter thr (⟨L, 31⟩ : LoopState).silence_counter b)
          ((⟨L, 31⟩ : LoopState).audio_buffer.length + 1) = true := by
        apply (isComplete_iff _ _ _ _ _).mpr
        left
        show codeSilenceLimit * codeR < ((nextCounter thr 31 b : ℕ) : ℚ)
        simp only [nextCounter, if_pos hb]
        norm_num [codeSilenceLimit, codeR, sample_rate, chunk_size]
      have hml : codeMinFrames < (⟨L, 31⟩ : LoopState).audio_buffer.length + 1 := by
        show codeMinFrames < L.length + 1
        have hmin : codeMinFrames = 2 := rfl
        omega
      rw [runLoop_concat, hL,
        stepFrame_complete_dispatch thr codeSilenceLimit codeR codeMaxFrames
          codeMinFrames ⟨L, 31⟩ [] b hc hml]
      simp
  refine ⟨main chunks hlen hsil, ?_⟩
  rw [runLoop_append_of_reset thr codeSilenceLimit codeR codeMaxFrames
    codeMinFrames chunks more (by rw [main chunks hlen hsil]),
    main chunks hlen hsil, main more hlen2 hsil2]
  rfl

/-- Witness for C9: 32 literal all-zero chunks, twice over. -/
theorem allSilent_dispatches_witness :
    runLoop codeDefaultThreshold codeSilenceLimit codeR codeMaxFrames
        codeMinFrames (List.replicate 32 silentChunk) =
      (freshState, [List.replicate 32 silentChunk]) ∧
    runLoop codeDefaultThreshold codeSilenceLimit codeR codeMaxFrames
        codeMinFrames (List.replicate 32 silentChunk ++ List.replicate 32 silentChunk) =
      (freshState, [List.replicate 32 silentChunk, List.replicate 32 silentChunk]) :=
  allSilent_dispatches codeDefaultThreshold (List.replicate 32 silentChunk)
    (List.replicate 32 silentChunk) (by simp)
    (by intro d hd; rw [List.eq_of_mem_replicate hd]; with_unfolding_all rfl)
    (by simp)
    (by intro d hd; rw [List.eq_of_mem_replicate hd]; with_unfolding_all rfl)

theorem npMaxAbs_lt_iff (xs : List ℚ) (t : ℚ) (h : xs ≠ []) :
    npMaxAbs xs < t ↔ ∀ x ∈ xs, |x| < t := by
  induction xs with
  | nil => exact absurd rfl h
  | cons a tl ih =>
      rcases eq_or_ne tl [] with rfl | htl
      · have h1 : npMaxAbs [a] = max |a| 0 := rfl
        rw [h1, max_eq_left (abs_nonneg a)]
        simp
      · have h1 : npMaxAbs (a :: tl) = max |a| (npMaxAbs tl) := rfl
        rw [h1, max_lt_iff, ih htl]
        simp [List.forall_mem_cons]

/-- C4: on a nonempty frame, `is_silent` holds exactly when the normalized
absolute amplitude of every sample (raw sample over 32768) is strictly below the
threshold, and it reports non-silent exactly when some sample reaches the
threshold — so a frame whose peak equals the threshold is non-silent. -/
theorem isSilent_peak (frame : Chunk) (thr : ℚ) (hne : frame ≠ []) :
    (is_silent (toFloat frame) thr = true ↔
      ∀ s ∈ frame, |(s : ℚ)| / 32768 < thr) ∧
    (is_silent (toFloat frame) thr = false ↔
      ∃ s ∈ frame, thr ≤ |(s : ℚ)| / 32768) := by
  have hne2 : toFloat frame ≠ [] := by
    simp only [toFloat, ne_eq, List.map_eq_nil_iff]
    exact hne
  have habs : ∀ s : ℤ, |(s : ℚ) / 32768| = |(s : ℚ)| / 32768 := by
    intro s
    rw [abs_div, abs_of_pos (by norm_num : (0:ℚ) < 32768)]
  have h1 : is_silent (toFloat frame) thr = true ↔
      ∀ s ∈ frame, |(s : ℚ)| / 32768 < thr := by
    rw [is_silent, decide_eq_true_eq, npMaxAbs_lt_iff _ _ hne2]
    constructor
    · intro h s hs
      have hx := h ((s : ℚ) / 32768) (by
        simp only [toFloat, List.mem_map]
        exact ⟨s, hs, rfl⟩)
      rwa [habs s] at hx
    · intro h x hx
      simp only [toFloat, List.mem_map] at hx
      obtain ⟨s, hs, rfl⟩ := hx
      rw [habs s]
      exact h s hs
  refine ⟨h1, ?_⟩
  rw [← Bool.not_eq_true, h1]
  push_neg
  rfl

/-- Witness for C4: the frame `[-32768]` has normalized peak exactly 1; at
threshold 1 it is classified non-silent (boundary is strict). -/
theorem isSilent_peak_witness :
    (is_silent (toFloat [(-32768 : ℤ)]) 1 = true ↔
      ∀ s ∈ [(-32768 : ℤ)], |(s : ℚ)| / 32768 < 1) ∧
    (is_silent (toFloat [(-32768 : ℤ)]) 1 = false ↔
      ∃ s ∈ [(-32768 : ℤ)], 1 ≤ |(s : ℚ)| / 32768) :=
  isSilent_peak [(-32768 : ℤ)] 1 (by simp)

/-- C5: whenever the completion condition fires on the chunk just appended,
the step with the short-buffer cutoff 2 of the code clears both the frame buffer
and the silence counter; it dispatches the accumulated chunks as one segment
exactly when the buffer holds more than 2 chunks, and dispatches nothing for
a buffer of at most 2 chunks. -/
theorem takeIfSubstantial_policy (thr S R : ℚ) (maxF : ℕ) (st : LoopState)
    (segs : List (List Chunk)) (c : Chunk)
    (hc : isComplete S R maxF (nextCounter thr st.silence_counter c)
      (st.audio_buffer.length + 1) = true) :
    (st.audio_buffer.length + 1 ≤ 2 →
      stepFrame thr S R maxF 2 (st, segs) c = (freshState, segs)) ∧
    (2 < st.audio_buffer.length + 1 →
      stepFrame thr S R maxF 2 (st, segs) c =
        (freshState, segs ++ [st.audio_buffer ++ [c]])) :=
  ⟨fun h => stepFrame_complete_discard thr S R maxF 2 st segs c hc h,
   fun h => stepFrame_complete_dispatch thr S R maxF 2 st segs c hc h⟩

/-- Witness for C5, both branches: a fresh state with silence limit 0
completes on a single silent chunk and discards the 1-chunk buffer; a state
already holding two chunks completes and dispatches the 3-chunk buffer. -/
theorem takeIfSubstantial_policy_witness :
    stepFrame codeDefaultThreshold 0 1 50 2 (freshState, []) silentChunk =
      (freshState, []) ∧
    stepFrame codeDefaultThreshold 0 1 50 2
        (⟨[silentChunk, silentChunk], 2⟩, []) silentChunk =
      (freshState, [[silentChunk, silentChunk, silentChunk]]) := by
  constructor
  · exact (takeIfSubstantial_policy codeDefaultThreshold 0 1 50 freshState []
      silentChunk (by with_unfolding_all rfl)).1 (by decide)
  · have h := (takeIfSubstantial_policy codeDefaultThreshold 0 1 50
      ⟨[silentChunk, silentChunk], 2⟩ [] silentChunk
      (by with_unfolding_all rfl)).2 (by decide)
    rw [h]
    rfl

/-- C6: the UI threshold value maps to the effective float threshold by
division by 5000; in particular 50 ↦ 0.01, 0 ↦ 0, 100 ↦ 0.02. -/
theorem setThreshold_scaling :
    set_threshold 50 = 1 / 100 ∧ set_threshold 0 = 0 ∧
      set_threshold 100 = 1 / 50 ∧
      ∀ ui : ℕ, set_threshold ui = (ui : ℚ) / 5000 := by
  refine ⟨?_, ?_, ?_, fun ui => rfl⟩ <;> norm_num [set_threshold]

/-- C10: the hand-off queue is constructed with unbounded capacity
(`maxsize = 0`), so a put always succeeds — it never blocks and never drops
the frame — and the queue grows by exactly one item, whatever its current
contents. -/
theorem queue_put_unbounded (items : List Chunk) (x : Chunk) :
    queuePut 0 items x = some (items ++ [x]) ∧
    (items ++ [x]).length = items.length + 1 := by
  constructor
  · rw [queuePut, if_pos (Or.inl rfl)]
  · simp

/-- C7: when the completion condition fires on a buffer longer than the
cutoff and the backend transcription call fails, exactly one Error event is
emitted, the temporary WAV file is created and removed anyway, and both the
frame buffer and the silence counter are reset together, leaving the
accumulator in the fresh state, immediately ready for the next segment; the
iteration returns normally, so the capture loop keeps running. -/
theorem backend_failure_recovery (thr S R : ℚ) (maxF minF : ℕ) (msg : String)
    (st : LoopState) (c : Chunk)
    (hc : isComplete S R maxF (nextCounter thr st.silence_counter c)
      (st.audio_buffer.length + 1) = true)
    (hlen : minF < st.audio_buffer.length + 1) :
    runIteration thr S R maxF minF none (BackendResult.fail msg) st c =
      ⟨freshState, some (st.audio_buffer ++ [c]),
        [Event.error ("Transcription error: " ++ msg)], true, true⟩ := by
  have hl : (st.audio_buffer ++ [c]).length = st.audio_buffer.length + 1 := by simp
  simp only [runIteration, hl, hc, if_true, dispatchEvents]
  simp [hlen, freshState]

/-- Witness for C7: a 3-chunk buffer completing under silence limit 0 with a
failing backend. -/
theorem backend_failure_recovery_witness :
    runIteration codeDefaultThreshold 0 1 50 2 none (BackendResult.fail "boom")
        ⟨[silentChunk, silentChunk], 2⟩ silentChunk =
      ⟨freshState, some [silentChunk, silentChunk, silentChunk],
        [Event.error ("Transcription error: " ++ "boom")], true, true⟩ :=
  backend_failure_recovery codeDefaultThreshold 0 1 50 2 "boom"
    ⟨[silentChunk, silentChunk], 2⟩ silentChunk
    (by with_unfolding_all rfl) (by decide)

/-- C8 (amended): if the concatenate-and-save section raises after the
completion condition fired on a substantial buffer, one Processing-error
event is emitted, nothing is dispatched, and the frame buffer and silence
counter are NOT cleared — the accumulator keeps the grown buffer. The
completion condition re-triggers on the very next chunk whenever that chunk
is silent, and also — whatever the next chunk is — when the kept buffer
already exceeds the length cap; a non-silent next chunk with the buffer
within the cap does not re-trigger it. -/
theorem save_failure_keeps_state (thr S R : ℚ) (maxF minF : ℕ) (m : String)
    (backend : BackendResult) (st : LoopState) (c : Chunk)
    (hc : isComplete S R maxF (nextCounter thr st.silence_counter c)
      (st.audio_buffer.length + 1) = true)
    (hlen : minF < st.audio_buffer.length + 1) :
    runIteration thr S R maxF minF (some m) backend st c =
      ⟨⟨st.audio_buffer ++ [c], nextCounter thr st.silence_counter c⟩, none,
        [Event.error ("Processing error: " ++ m)], false, false⟩ ∧
    (∀ c2, is_silent (toFloat c2) thr = true →
      isComplete S R maxF
        (nextCounter thr (nextCounter thr st.silence_counter c) c2)
        (st.audio_buffer.length + 1 + 1) = true) ∧
    (maxF < st.audio_buffer.length + 1 →
      ∀ c2, isComplete S R maxF
        (nextCounter thr (nextCounter thr st.silence_counter c) c2)
        (st.audio_buffer.length + 1 + 1) = true) := by
  refine ⟨?_, ?_, ?_⟩
  · have hl : (st.audio_buffer ++ [c]).length = st.audio_buffer.length + 1 := by simp
    simp only [runIteration, hl, hc, if_true]
    simp [hlen]
  · intro c2 hc2
    rcases (isComplete_iff _ _ _ _ _).mp hc with h | h
    · apply (isComplete_iff _ _ _ _ _).mpr
      left
      simp only [nextCounter, if_pos hc2]
      have hle : ((nextCounter thr st.silence_counter c : ℕ) : ℚ) ≤
          ((nextCounter thr st.silence_counter c + 1 : ℕ) : ℚ) := by
        exact_mod_cast Nat.le_succ _
      exact lt_of_lt_of_le h hle
    · apply (isComplete_iff _ _ _ _ _).mpr
      right
      omega
  · intro hcap c2
    apply (isComplete_iff _ _ _ _ _).mpr
    right
    omega

/-- Witness for the amended C8 theorem: a save failure on a 3-chunk buffer that
completed under silence limit 0. -/
theorem save_failure_keeps_state_witness :
    runIteration codeDefaultThreshold 0 1 50 2 (some "disk full")
        (BackendResult.ok "") ⟨[silentChunk, silentChunk], 2⟩ silentChunk =
      ⟨⟨[silentChunk, silentChunk, silentChunk], 3⟩, none,
        [Event.error ("Processing error: " ++ "disk full")], false, false⟩ :=
  ((save_failure_keeps_state codeDefaultThreshold 0 1 50 2 "disk full"
      (BackendResult.ok "") ⟨[silentChunk, silentChunk], 2⟩ silentChunk
      (by with_unfolding_all rfl) (by decide)).1).trans (by with_unfolding_all rfl)


set_option maxRecDepth 200000 in
/-- C8-counterexample: with the parameters of the code, the save step fails at
chunk 32 (the silence-completion point): one Processing-error event is
emitted and the 32-chunk buffer is kept — but the very next chunk, being
non-silent, does NOT re-trigger the completion condition: the buffer simply
grows to 33 chunks, nothing is dispatched, and no further event is emitted. -/
theorem save_failure_counterexample :
    (runLoopE codeDefaultThreshold codeSilenceLimit codeR codeMaxFrames
        codeMinFrames c8Inputs).1.audio_buffer.length = 33 ∧
    (runLoopE codeDefaultThreshold codeSilenceLimit codeR codeMaxFrames
        codeMinFrames c8Inputs).2.1 = [] ∧
    (runLoopE codeDefaultThreshold codeSilenceLimit codeR codeMaxFrames
        codeMinFrames c8Inputs).2.2 =
      [Event.error ("Processing error: " ++ "disk full")] := by
  refine ⟨?_, ?_, ?_⟩ <;> with_unfolding_all rfl
